import Mathlib

/-!
# Verification of the git-crypt-rs core

Shallow embedding of the git-crypt-rs sources (crypto.rs, git.rs, key.rs,
commands/filters.rs, commands/init.rs, rage.rs, commands/add_ssh_user.rs)
and proofs of the specification's claims about them.

Byte sequences are modelled as `List Nat` (each element a byte value).
The AES-256-GCM primitive and the age encryption primitive are external
library calls in the source; they are modelled as abstract parameters
(`AeadCipher`, `AgeBackend`) whose contractual properties appear as
hypotheses of the theorems, discharged on concrete instances in the
witnesses.
-/

namespace GitCrypt

abbrev Bytes := List Nat

/-- crypto.rs: `pub const KEY_SIZE: usize = 32`. -/
def KEY_SIZE : Nat := 32

/-- crypto.rs: `pub const NONCE_SIZE: usize = 12`. -/
def NONCE_SIZE : Nat := 12

/-- The AES-GCM authentication tag length (16 bytes), fixed by the
`aes_gcm` library used in crypto.rs and documented in its module header. -/
def TAG_SIZE : Nat := 16

/-- crypto.rs: `const MAGIC_HEADER: &[u8] = b"GITCRYPT"` (ASCII codes). -/
def MAGIC_HEADER : Bytes := [71, 73, 84, 67, 82, 89, 80, 84]

/-- error.rs: `enum GitCryptError`.  The `Age` variant is constructed by
rage.rs (feature-gated module); source variants carrying a payload keep it. -/
inductive GitCryptError where
  | Git : String → GitCryptError
  | Io : String → GitCryptError
  | Crypto : String → GitCryptError
  | Gpg : String → GitCryptError
  | Age : String → GitCryptError
  | NotInitialized : GitCryptError
  | AlreadyInitialized : GitCryptError
  | KeyNotFound : String → GitCryptError
  | InvalidKeyFormat : GitCryptError
  | NotInGitRepo : GitCryptError
  | Other : String → GitCryptError
deriving DecidableEq, Repr

/-- The string displayed by the `aead` crate's error type, which crypto.rs
wraps as `GitCryptError::Crypto(e.to_string())` on AEAD failure. -/
def aeadErrorMsg : String := "aead::Error"

/-- Abstract model of the AES-256-GCM primitive from the `aes_gcm` crate:
`enc key nonce plaintext` is the ciphertext-with-appended-tag (`none` when
the library call fails), `dec key nonce ct` is the recovered plaintext or
`none` on authentication failure. -/
structure AeadCipher where
  enc : Bytes → Bytes → Bytes → Option Bytes
  dec : Bytes → Bytes → Bytes → Option Bytes

/-- AEAD contract: decryption with the same key and nonce inverts a
successful encryption. -/
def AeadCipher.Roundtrip (A : AeadCipher) : Prop :=
  ∀ k n p ct, A.enc k n p = some ct → A.dec k n ct = some p

/-- AEAD contract: a successful encryption appends exactly the 16-byte tag. -/
def AeadCipher.TagLen (A : AeadCipher) : Prop :=
  ∀ k n p ct, A.enc k n p = some ct → ct.length = p.length + TAG_SIZE

/-- crypto.rs: `struct CryptoKey { key: [u8; KEY_SIZE] }`.  The fixed array
length is carried as a hypothesis where a claim needs it. -/
structure CryptoKey where
  key : Bytes
deriving DecidableEq, Repr

namespace CryptoKey

/-- crypto.rs: `CryptoKey::from_bytes`. -/
def from_bytes (bytes : Bytes) : Except GitCryptError CryptoKey :=
  if bytes.length ≠ KEY_SIZE then
    .error .InvalidKeyFormat
  else
    .ok ⟨bytes⟩

/-- crypto.rs: `CryptoKey::as_bytes`. -/
def as_bytes (k : CryptoKey) : Bytes := k.key

/-- crypto.rs: `CryptoKey::encrypt`.  The random nonce drawn from `OsRng`
is an explicit argument; the `aes_gcm` cipher is the `A` parameter.  The
`new_from_slice` call cannot fail on the 32-byte key field and is elided. -/
def encrypt (A : AeadCipher) (k : CryptoKey) (nonce_bytes : Bytes)
    (plaintext : Bytes) : Except GitCryptError Bytes :=
  match A.enc k.key nonce_bytes plaintext with
  | none => .error (.Crypto aeadErrorMsg)
  | some ciphertext => .ok (MAGIC_HEADER ++ nonce_bytes ++ ciphertext)

/-- crypto.rs: `CryptoKey::decrypt`. -/
def decrypt (A : AeadCipher) (k : CryptoKey) (ciphertext : Bytes) :
    Except GitCryptError Bytes :=
  let min_size := MAGIC_HEADER.length + NONCE_SIZE
  if ciphertext.length < min_size then
    .error (.Crypto "Ciphertext too short")
  else if ciphertext.take MAGIC_HEADER.length ≠ MAGIC_HEADER then
    .error (.Crypto "Invalid encrypted data format")
  else
    let data := ciphertext.drop MAGIC_HEADER.length
    let nonce_bytes := data.take NONCE_SIZE
    let encrypted_data := data.drop NONCE_SIZE
    match A.dec k.key nonce_bytes encrypted_data with
    | none => .error (.Crypto aeadErrorMsg)
    | some plaintext => .ok plaintext

/-- crypto.rs: `CryptoKey::is_encrypted`. -/
def is_encrypted (data : Bytes) : Bool :=
  MAGIC_HEADER.length ≤ data.length &&
    data.take MAGIC_HEADER.length == MAGIC_HEADER

end CryptoKey

/-- UTF-8 bytes of a string, for the fixed texts the filters emit. -/
def strBytes (s : String) : Bytes := s.toUTF8.toList.map UInt8.toNat

/-- git.rs `diff_filter`: the marker written by `writeln!` (text plus the
trailing newline). -/
def DIFF_MARKER : Bytes :=
  strBytes "*** This file is encrypted with git-crypt ***\n"

/-- git.rs: `clean_filter`.  Stdin is the `input` argument, the returned
bytes are what is written to stdout. -/
def clean_filter (A : AeadCipher) (key : CryptoKey) (nonce : Bytes)
    (input : Bytes) : Except GitCryptError Bytes :=
  if CryptoKey.is_encrypted input then
    .ok input
  else
    CryptoKey.encrypt A key nonce input

/-- git.rs: `smudge_filter`. -/
def smudge_filter (A : AeadCipher) (key : CryptoKey) (input : Bytes) :
    Except GitCryptError Bytes :=
  if !CryptoKey.is_encrypted input then
    .ok input
  else
    CryptoKey.decrypt A key input

/-- git.rs: `diff_filter`. -/
def diff_filter (input : Bytes) : Except GitCryptError Bytes :=
  if CryptoKey.is_encrypted input then
    .ok DIFF_MARKER
  else
    .ok input

/-- The filesystem and repository state the key-management code touches:
whether the process runs inside a git repository, whether
`<git_dir>/git-crypt` and `<git_dir>/git-crypt/keys` exist, and the content
of `<git_dir>/git-crypt/keys/default` when that file exists. -/
structure RepoState where
  inGitRepo : Bool
  gitCryptDirExists : Bool
  keysDirExists : Bool
  defaultKeyFile : Option Bytes
deriving DecidableEq, Repr

namespace KeyManager

/-- key.rs: `KeyManager::is_initialized` (`git_crypt_dir().exists()`). -/
def is_initialized (s : RepoState) : Bool := s.gitCryptDirExists

/-- key.rs: `KeyManager::init_dirs`.  Returns the result together with the
state after the call; the early `AlreadyInitialized` return performs no
filesystem operation. -/
def init_dirs (s : RepoState) : Except GitCryptError Unit × RepoState :=
  if s.gitCryptDirExists then
    (.error .AlreadyInitialized, s)
  else
    (.ok (), { s with gitCryptDirExists := true, keysDirExists := true })

/-- key.rs: `KeyManager::save_key` (`create_dir_all` on the parent, then
write the raw key bytes; the Unix permission bits are outside this model). -/
def save_key (key : CryptoKey) (s : RepoState) :
    Except GitCryptError Unit × RepoState :=
  (.ok (), { s with keysDirExists := true, defaultKeyFile := some key.key })

/-- key.rs: `KeyManager::load_key`. -/
def load_key (s : RepoState) : Except GitCryptError CryptoKey :=
  match s.defaultKeyFile with
  | none => .error (.KeyNotFound "default")
  | some key_bytes => CryptoKey.from_bytes key_bytes

/-- key.rs: `KeyManager::import_key`.  `inputFile` is the content of the
file at `input_path` (`none` when `File::open` fails). -/
def import_key (inputFile : Option Bytes) (s : RepoState) :
    Except GitCryptError Unit × RepoState :=
  match inputFile with
  | none => (.error (.Io "No such file or directory"), s)
  | some key_bytes =>
    match CryptoKey.from_bytes key_bytes with
    | .error e => (.error e, s)
    | .ok key => save_key key s

end KeyManager

namespace Commands

/-- commands/filters.rs: `clean`.  `GitRepo::open(".")` succeeds exactly
when `s.inGitRepo`; the checks run before `clean_filter` reads stdin, so
the error cases do not depend on `input`. -/
def clean (A : AeadCipher) (s : RepoState) (nonce : Bytes) (input : Bytes) :
    Except GitCryptError Bytes :=
  if !s.inGitRepo then
    .error (.Other "Not in a git repository")
  else if !KeyManager.is_initialized s then
    .error .NotInitialized
  else
    match KeyManager.load_key s with
    | .error e => .error e
    | .ok key => clean_filter A key nonce input

/-- commands/filters.rs: `smudge`. -/
def smudge (A : AeadCipher) (s : RepoState) (input : Bytes) :
    Except GitCryptError Bytes :=
  if !s.inGitRepo then
    .error (.Other "Not in a git repository")
  else if !KeyManager.is_initialized s then
    .error .NotInitialized
  else
    match KeyManager.load_key s with
    | .error e => .error e
    | .ok key => smudge_filter A key input

/-- commands/filters.rs: `diff` — it calls git.rs `diff_filter` directly,
with no repository, initialization or key check. -/
def diff (input : Bytes) : Except GitCryptError Bytes :=
  diff_filter input

/-- commands/init.rs: `init`.  `freshKey` is the key `CryptoKey::generate`
would draw; `configure_filters` touches only git config, outside
`RepoState`, and is modelled as succeeding. -/
def init (freshKey : CryptoKey) (s : RepoState) :
    Except GitCryptError Unit × RepoState :=
  if !s.inGitRepo then
    (.error .NotInGitRepo, s)
  else if KeyManager.is_initialized s then
    (.ok (), s)
  else
    match KeyManager.init_dirs s with
    | (.error e, s1) => (.error e, s1)
    | (.ok _, s1) =>
      match KeyManager.save_key freshKey s1 with
      | (.error e, s2) => (.error e, s2)
      | (.ok _, s2) => (.ok (), s2)

end Commands

/-- Abstract model of the `age` library used by rage.rs: recipient and
identity parsing, and the envelope encryption and decryption calls.
`R` and `I` are the library's recipient and identity types. -/
structure AgeBackend (R I : Type) where
  parseRecipient : String → Option R
  encryptPayload : R → Bytes → Option Bytes
  parseIdentity : String → String → Option I
  decryptPayload : I → Bytes → Option Bytes

/-- age contract for a matching SSH key pair: the identity opens every
envelope produced for the recipient, recovering the payload. -/
def AgeBackend.MatchingPair {R I : Type} (B : AgeBackend R I) (r : R)
    (idn : I) : Prop :=
  ∀ payload ct, B.encryptPayload r payload = some ct →
    B.decryptPayload idn ct = some payload

namespace RageManager

/-- rage.rs: `RageManager::encrypt_key_for_ssh_recipient`.  Parses the
trimmed recipient text, then encrypts the raw key bytes
(`writer.write_all(key.as_bytes())`); error messages keep their fixed
prefixes, the appended library detail is elided. -/
def encrypt_key_for_ssh_recipient {R I : Type} (B : AgeBackend R I)
    (key : CryptoKey) (recipient : String) : Except GitCryptError Bytes :=
  match B.parseRecipient recipient.trim with
  | none => .error (.Age "Invalid SSH recipient")
  | some r =>
    match B.encryptPayload r key.as_bytes with
    | none => .error (.Age "age encryption failed")
    | some ciphertext => .ok ciphertext

/-- rage.rs: `RageManager::decrypt_key_with_ssh_identity`.  Parses the SSH
identity, decrypts the envelope, and validates the recovered payload via
`CryptoKey::from_bytes`. -/
def decrypt_key_with_ssh_identity {R I : Type} (B : AgeBackend R I)
    (encrypted : Bytes) (identity_content : String)
    (identity_label : String) : Except GitCryptError CryptoKey :=
  match B.parseIdentity identity_content identity_label with
  | none => .error (.Age "Invalid SSH identity")
  | some idn =>
    match B.decryptPayload idn encrypted with
    | none => .error (.Age "age decryption failed")
    | some plaintext => CryptoKey.from_bytes plaintext

end RageManager

/-- commands/add_ssh_user.rs: `sanitize_label` — keep ASCII alphanumerics
and `-`, `_`, `.` (`Char.isAlphanum` is the ASCII check, matching
`char::is_ascii_alphanumeric`). -/
def sanitize_label (input : String) : String :=
  String.mk (input.toList.filter
    (fun c => c.isAlphanum || c = '-' || c = '_' || c = '.'))

/-- Helper for `splitWhitespaceTokens`: collects maximal runs of
non-whitespace characters, `acc` holding the current run reversed. -/
def splitWsAux : List Char → List Char → List String
  | [], acc => if acc.isEmpty then [] else [String.mk acc.reverse]
  | c :: cs, acc =>
    if c.isWhitespace then
      if acc.isEmpty then splitWsAux cs []
      else String.mk acc.reverse :: splitWsAux cs []
    else splitWsAux cs (c :: acc)

/-- Rust `str::split_whitespace`: the maximal whitespace-free runs of the
string, in order, with no empty pieces. -/
def splitWhitespaceTokens (s : String) : List String :=
  splitWsAux s.toList []

/-- Lowercase hex digit of a value below 16. -/
def hexDigit (n : Nat) : Char :=
  if n < 10 then Char.ofNat (48 + n) else Char.ofNat (87 + n)

/-- Two lowercase hex digits of one byte (`hex::encode` per byte). -/
def hexByte (b : Nat) : List Char :=
  [hexDigit (b % 256 / 16), hexDigit (b % 16)]

/-- Rust `hex::encode`: lowercase hex of a byte sequence. -/
def hexEncode (bs : Bytes) : String := String.mk ((bs.map hexByte).flatten)

/-- commands/add_ssh_user.rs: `fallback_fingerprint` — `"ssh-"` plus the
hex of the first 8 bytes of the SHA-256 digest of the key text.  The
SHA-256 primitive from the `sha2` crate is the abstract `hash` parameter. -/
def fallback_fingerprint (hash : String → Bytes) (data : String) : String :=
  "ssh-" ++ hexEncode ((hash data).take 8)

/-- commands/add_ssh_user.rs: `derive_recipient_name`.  `fileStem` models
`ssh_key_path.file_stem().and_then(|s| s.to_str())` from std::path. -/
def derive_recipient_name (hash : String → Bytes) (ssh_key : String)
    (fileStem : Option String) : String :=
  let fromComment :=
    (((splitWhitespaceTokens ssh_key).get? 2).map sanitize_label).filter
      (fun s => !s.isEmpty)
  let fromStem :=
    (fileStem.map sanitize_label).filter (fun s => !s.isEmpty)
  ((fromComment.orElse (fun _ => fromStem))).getD
    (fallback_fingerprint hash ssh_key)

/-- commands/add_ssh_user.rs: the `name` computation in `add_ssh_user`
(the wrapped key file is then written to `keys/age/<name>.age`). -/
def recipient_name (hash : String → Bytes) (aliasArg : Option String)
    (ssh_key : String) (fileStem : Option String) : String :=
  ((aliasArg.map sanitize_label).filter (fun s => !s.isEmpty)).getD
    (derive_recipient_name hash ssh_key fileStem)

/-! ### Concrete instances used to discharge the abstract-primitive
hypotheses on explicit inputs. -/

/-- A 16-byte checksum standing in for the GCM tag in the concrete
instance below. -/
def toyTag (k n p : Bytes) : Bytes :=
  (List.range TAG_SIZE).map (fun i => (k.sum + n.sum + p.sum + i) % 256)

/-- A concrete `AeadCipher`: ciphertext is the plaintext with the checksum
tag appended; decryption re-computes and checks the tag.  It satisfies the
round-trip and tag-length contracts of the abstract AEAD. -/
def toyAead : AeadCipher where
  enc := fun k n p => some (p ++ toyTag k n p)
  dec := fun k n ct =>
    if ct.length < TAG_SIZE then none
    else
      if ct.drop (ct.length - TAG_SIZE) =
          toyTag k n (ct.take (ct.length - TAG_SIZE)) then
        some (ct.take (ct.length - TAG_SIZE))
      else none

lemma toyTag_length (k n p : Bytes) : (toyTag k n p).length = TAG_SIZE := by
  simp [toyTag]

lemma toyAead_dec_enc (k n p : Bytes) :
    toyAead.dec k n (p ++ toyTag k n p) = some p := by
  have hlen : (p ++ toyTag k n p).length = p.length + TAG_SIZE := by
    simp [toyTag_length]
  have hsub : (p ++ toyTag k n p).length - TAG_SIZE = p.length := by
    simp [hlen]
  have hnl : ¬ (p ++ toyTag k n p).length < TAG_SIZE := by
    rw [hlen]; omega
  show (if (p ++ toyTag k n p).length < TAG_SIZE then none
    else
      if (p ++ toyTag k n p).drop ((p ++ toyTag k n p).length - TAG_SIZE) =
          toyTag k n ((p ++ toyTag k n p).take
            ((p ++ toyTag k n p).length - TAG_SIZE)) then
        some ((p ++ toyTag k n p).take ((p ++ toyTag k n p).length - TAG_SIZE))
      else none) = some p
  rw [if_neg hnl, hsub, List.take_left, List.drop_left, if_pos rfl]

lemma toyAead_roundtrip : toyAead.Roundtrip := by
  intro k n p ct henc
  have hct : ct = p ++ toyTag k n p := by
    simpa [toyAead] using henc.symm
  rw [hct]
  exact toyAead_dec_enc k n p

lemma toyAead_taglen : toyAead.TagLen := by
  intro k n p ct henc
  have hct : ct = p ++ toyTag k n p := by
    simpa [toyAead] using henc.symm
  rw [hct]
  simp [toyTag_length]

/-- A concrete `AgeBackend` whose envelope is the payload itself. -/
def toyAge : AgeBackend Unit Unit where
  parseRecipient := fun _ => some ()
  encryptPayload := fun _ p => some p
  parseIdentity := fun _ _ => some ()
  decryptPayload := fun _ ct => some ct

lemma toyAge_matching : toyAge.MatchingPair () () := by
  intro payload ct h
  simpa [toyAge] using h.symm

/-- A concrete stand-in for the SHA-256 call in `fallback_fingerprint`. -/
def toyHash (s : String) : Bytes :=
  (List.range 32).map (fun i => (s.length + i) % 256)

/-! ### Shared helper lemmas -/

/-- A successful `CryptoKey.encrypt` is the magic header, the nonce, and a
successful AEAD encryption, concatenated. -/
lemma encrypt_ok_shape (A : AeadCipher) (k : CryptoKey) (nonce p ct : Bytes)
    (h : CryptoKey.encrypt A k nonce p = .ok ct) :
    ∃ c, A.enc k.key nonce p = some c ∧ ct = MAGIC_HEADER ++ nonce ++ c := by
  unfold CryptoKey.encrypt at h
  cases henc : A.enc k.key nonce p with
  | none => rw [henc] at h; exact absurd h (by simp)
  | some c =>
    rw [henc] at h
    exact ⟨c, rfl, by simpa using h.symm⟩

/-- Anything beginning with the magic header passes `is_encrypted`. -/
lemma is_encrypted_magic_append (rest : Bytes) :
    CryptoKey.is_encrypted (MAGIC_HEADER ++ rest) = true := by
  unfold CryptoKey.is_encrypted
  rw [List.take_left]
  simp

/-- Decrypting a well-formed blob reduces to the AEAD decryption of its
payload under the embedded nonce. -/
lemma decrypt_append (A : AeadCipher) (k : CryptoKey) (nonce c : Bytes)
    (hn : nonce.length = NONCE_SIZE) :
    CryptoKey.decrypt A k (MAGIC_HEADER ++ (nonce ++ c)) =
      match A.dec k.key nonce c with
      | none => .error (.Crypto aeadErrorMsg)
      | some plaintext => .ok plaintext := by
  have hlen : (MAGIC_HEADER ++ (nonce ++ c)).length =
      MAGIC_HEADER.length + (NONCE_SIZE + c.length) := by
    simp [hn]
  have hnl : ¬ (MAGIC_HEADER ++ (nonce ++ c)).length <
      MAGIC_HEADER.length + NONCE_SIZE := by
    rw [hlen]; omega
  have htake : (MAGIC_HEADER ++ (nonce ++ c)).take MAGIC_HEADER.length =
      MAGIC_HEADER := List.take_left _ _
  have hdrop : (MAGIC_HEADER ++ (nonce ++ c)).drop MAGIC_HEADER.length =
      nonce ++ c := List.drop_left _ _
  have htake2 : (nonce ++ c).take NONCE_SIZE = nonce := by
    rw [← hn]; exact List.take_left _ _
  have hdrop2 : (nonce ++ c).drop NONCE_SIZE = c := by
    rw [← hn]; exact List.drop_left _ _
  unfold CryptoKey.decrypt
  rw [if_neg hnl, if_neg (fun hne => hne htake), hdrop]
  simp only [htake2, hdrop2]

/-! ### Claims -/

/-- C1: For every 32-byte key K and every plaintext P, decrypting the
result of encrypting P under K returns exactly P — for any AEAD primitive
satisfying its round-trip contract, any fresh 12-byte nonce, and a
successful encryption. -/
theorem C1_encrypt_decrypt_roundtrip (A : AeadCipher) (hA : A.Roundtrip)
    (k : CryptoKey) (hk : k.key.length = KEY_SIZE)
    (nonce : Bytes) (hn : nonce.length = NONCE_SIZE)
    (p ct : Bytes) (henc : CryptoKey.encrypt A k nonce p = .ok ct) :
    CryptoKey.decrypt A k ct = .ok p := by
  obtain ⟨c, hc, hshape⟩ := encrypt_ok_shape A k nonce p ct henc
  rw [hshape, List.append_assoc, decrypt_append A k nonce c hn,
    hA k.key nonce p c hc]

/-- C1 witness: the round-trip evaluated on the all-zero 32-byte key, an
all-zero nonce and the plaintext `[5, 6, 7]` with the concrete cipher. -/
theorem C1_roundtrip_witness :
    CryptoKey.decrypt toyAead ⟨List.replicate KEY_SIZE 0⟩
      (MAGIC_HEADER ++ List.replicate NONCE_SIZE 0 ++
        ([5, 6, 7] ++ toyTag (List.replicate KEY_SIZE 0)
          (List.replicate NONCE_SIZE 0) [5, 6, 7])) = .ok [5, 6, 7] :=
  C1_encrypt_decrypt_roundtrip toyAead toyAead_roundtrip
    ⟨List.replicate KEY_SIZE 0⟩ (by decide)
    (List.replicate NONCE_SIZE 0) (by decide)
    [5, 6, 7] _ (by rfl)

/-- C3: the clean filter is idempotent — a second clean pass (under any
nonce the RNG may draw) leaves the output of a first successful clean pass
unchanged — and clean returns any magic-prefixed input unchanged. -/
theorem C3_clean_idempotent (A : AeadCipher) (key : CryptoKey) :
    (∀ n1 n2 X Y, clean_filter A key n1 X = .ok Y →
      clean_filter A key n2 Y = .ok Y) ∧
    (∀ n Z, CryptoKey.is_encrypted Z = true →
      clean_filter A key n Z = .ok Z) := by
  have hpass : ∀ n Z, CryptoKey.is_encrypted Z = true →
      clean_filter A key n Z = .ok Z := by
    intro n Z hZ
    unfold clean_filter
    rw [if_pos hZ]
  refine ⟨?_, hpass⟩
  intro n1 n2 X Y h
  by_cases hX : CryptoKey.is_encrypted X = true
  · have : Y = X := by
      unfold clean_filter at h
      rw [if_pos hX] at h
      exact (Except.ok.inj h).symm
    exact this ▸ hpass n2 X hX
  · unfold clean_filter at h
    rw [if_neg hX] at h
    obtain ⟨c, _, hshape⟩ := encrypt_ok_shape A key n1 X Y h
    have henc : CryptoKey.is_encrypted Y = true := by
      rw [hshape, List.append_assoc]
      exact is_encrypted_magic_append _
    exact hpass n2 Y henc

/-- C3 witness: cleaning twice equals cleaning once on the non-encrypted
input `[1, 2]`, with concrete cipher, key and nonces. -/
theorem C3_clean_idempotent_witness :
    clean_filter toyAead ⟨List.replicate KEY_SIZE 0⟩ (List.replicate NONCE_SIZE 1)
      (MAGIC_HEADER ++ List.replicate NONCE_SIZE 0 ++
        ([1, 2] ++ toyTag (List.replicate KEY_SIZE 0)
          (List.replicate NONCE_SIZE 0) [1, 2])) =
    .ok (MAGIC_HEADER ++ List.replicate NONCE_SIZE 0 ++
        ([1, 2] ++ toyTag (List.replicate KEY_SIZE 0)
          (List.replicate NONCE_SIZE 0) [1, 2])) :=
  (C3_clean_idempotent toyAead ⟨List.replicate KEY_SIZE 0⟩).1
    (List.replicate NONCE_SIZE 0) (List.replicate NONCE_SIZE 1) [1, 2] _ (by rfl)

/-- C2 counterexample: the 20-byte blob consisting of the magic header and
twelve zero bytes is shorter than 36 bytes, yet decrypt does not fail with
either format error — it reaches AEAD authentication and fails there with
the AEAD error message, a value distinct from both format errors. -/
theorem C2_decrypt_error_counterexample :
    (MAGIC_HEADER ++ List.replicate NONCE_SIZE 0).length < 36 ∧
    CryptoKey.decrypt toyAead ⟨List.replicate KEY_SIZE 0⟩
        (MAGIC_HEADER ++ List.replicate NONCE_SIZE 0) =
      .error (.Crypto aeadErrorMsg) ∧
    GitCryptError.Crypto aeadErrorMsg ≠ .Crypto "Ciphertext too short" ∧
    GitCryptError.Crypto aeadErrorMsg ≠
      .Crypto "Invalid encrypted data format" := by
  refine ⟨by decide, by rfl, by decide, by decide⟩

/-- C2 (amended): decrypt fails with the "Ciphertext too short" error
exactly when the blob is shorter than 20 bytes (magic plus nonce, not 36);
with the "Invalid encrypted data format" error when it is at least 20
bytes but its first 8 bytes differ from the magic header; and with the
AEAD error — a distinct error value — when the header parses but the AEAD
tag does not verify.  All three are the `Crypto` variant with pairwise
distinct messages. -/
theorem C2_decrypt_error_classes (A : AeadCipher) (k : CryptoKey)
    (blob : Bytes) :
    (blob.length < MAGIC_HEADER.length + NONCE_SIZE →
      CryptoKey.decrypt A k blob = .error (.Crypto "Ciphertext too short")) ∧
    (MAGIC_HEADER.length + NONCE_SIZE ≤ blob.length →
      blob.take MAGIC_HEADER.length ≠ MAGIC_HEADER →
      CryptoKey.decrypt A k blob =
        .error (.Crypto "Invalid encrypted data format")) ∧
    (MAGIC_HEADER.length + NONCE_SIZE ≤ blob.length →
      blob.take MAGIC_HEADER.length = MAGIC_HEADER →
      A.dec k.key ((blob.drop MAGIC_HEADER.length).take NONCE_SIZE)
        ((blob.drop MAGIC_HEADER.length).drop NONCE_SIZE) = none →
      CryptoKey.decrypt A k blob = .error (.Crypto aeadErrorMsg)) ∧
    (GitCryptError.Crypto "Ciphertext too short" ≠
        .Crypto "Invalid encrypted data format" ∧
      GitCryptError.Crypto aeadErrorMsg ≠ .Crypto "Ciphertext too short" ∧
      GitCryptError.Crypto aeadErrorMsg ≠
        .Crypto "Invalid encrypted data format") := by
  refine ⟨?_, ?_, ?_, by decide, by decide, by decide⟩
  · intro hshort
    unfold CryptoKey.decrypt
    rw [if_pos hshort]
  · intro hlen hmagic
    unfold CryptoKey.decrypt
    rw [if_neg (by omega), if_pos hmagic]
  · intro hlen hmagic hdec
    unfold CryptoKey.decrypt
    rw [if_neg (by omega), if_neg (fun hne => hne hmagic)]
    simp only [hdec]

/-- C2 witness: the amended classification applied to a 3-byte blob,
which fails with "Ciphertext too short". -/
theorem C2_decrypt_error_classes_witness :
    CryptoKey.decrypt toyAead ⟨List.replicate KEY_SIZE 0⟩ [71, 73, 84] =
      .error (.Crypto "Ciphertext too short") :=
  (C2_decrypt_error_classes toyAead ⟨List.replicate KEY_SIZE 0⟩
    [71, 73, 84]).1 (by decide)

/-- C4: a successful encryption is exactly the 8-byte magic header, the
12-byte nonce, and the AEAD ciphertext with its appended 16-byte tag; its
length is 36 + |P| (at least 36) and it begins with the magic header. -/
theorem C4_encrypt_format (A : AeadCipher) (hA : A.TagLen) (k : CryptoKey)
    (nonce : Bytes) (hn : nonce.length = NONCE_SIZE) (p ct : Bytes)
    (h : CryptoKey.encrypt A k nonce p = .ok ct) :
    (∃ c, A.enc k.key nonce p = some c ∧ c.length = p.length + TAG_SIZE ∧
      ct = MAGIC_HEADER ++ nonce ++ c) ∧
    ct.length = 36 + p.length ∧
    ct.take MAGIC_HEADER.length = MAGIC_HEADER ∧
    36 ≤ ct.length := by
  obtain ⟨c, hc, hshape⟩ := encrypt_ok_shape A k nonce p ct h
  have hclen : c.length = p.length + TAG_SIZE := hA k.key nonce p c hc
  have hctlen : ct.length = 36 + p.length := by
    rw [hshape]
    simp [hn, hclen, MAGIC_HEADER, NONCE_SIZE, TAG_SIZE]
    omega
  refine ⟨⟨c, hc, hclen, hshape⟩, hctlen, ?_, by omega⟩
  rw [hshape, List.append_assoc]
  exact List.take_left _ _

/-- C4 witness: the format facts evaluated on the all-zero key and nonce
and the plaintext `[9]` with the concrete cipher. -/
theorem C4_encrypt_format_witness :
    (MAGIC_HEADER ++ List.replicate NONCE_SIZE 0 ++
      ([9] ++ toyTag (List.replicate KEY_SIZE 0)
        (List.replicate NONCE_SIZE 0) [9])).length = 36 + [9].length :=
  (C4_encrypt_format toyAead toyAead_taglen ⟨List.replicate KEY_SIZE 0⟩
    (List.replicate NONCE_SIZE 0) (by decide) [9] _ (by rfl)).2.1

/-- C5 counterexample: in a state whose git-crypt directory does not exist
(and with no key file), the diff command still succeeds and emits output —
it performs no initialization or key check at all. -/
theorem C5_filter_preconditions_counterexample :
    KeyManager.is_initialized ⟨true, false, false, none⟩ = false ∧
    Commands.diff [1, 2, 3] = .ok [1, 2, 3] ∧
    (Except.ok [1, 2, 3] : Except GitCryptError Bytes) ≠
      .error .NotInitialized := by
  refine ⟨rfl, rfl, by simp⟩

/-- C5 (amended): clean and smudge fail with NotInitialized when the
git-crypt directory does not exist, and with KeyNotFound when the key file
is absent, with the same error for every input (the check precedes reading
stdin) and no output; diff, by contrast, performs no repository,
initialization or key check, and succeeds on every input. -/
theorem C5_filter_preconditions (A : AeadCipher) (s : RepoState)
    (hrepo : s.inGitRepo = true) :
    (KeyManager.is_initialized s = false →
      ∀ nonce input, Commands.clean A s nonce input = .error .NotInitialized) ∧
    (KeyManager.is_initialized s = false →
      ∀ input, Commands.smudge A s input = .error .NotInitialized) ∧
    (KeyManager.is_initialized s = true → s.defaultKeyFile = none →
      ∀ nonce input, Commands.clean A s nonce input =
        .error (.KeyNotFound "default")) ∧
    (KeyManager.is_initialized s = true → s.defaultKeyFile = none →
      ∀ input, Commands.smudge A s input = .error (.KeyNotFound "default")) ∧
    (∀ input, ∃ out, Commands.diff input = .ok out) := by
  refine ⟨?_, ?_, ?_, ?_, ?_⟩
  · intro hinit nonce input
    unfold Commands.clean
    rw [if_neg (by simp [hrepo]), if_pos (by simp [hinit])]
  · intro hinit input
    unfold Commands.smudge
    rw [if_neg (by simp [hrepo]), if_pos (by simp [hinit])]
  · intro hinit hkey nonce input
    unfold Commands.clean
    rw [if_neg (by simp [hrepo]), if_neg (by simp [hinit])]
    simp [KeyManager.load_key, hkey]
  · intro hinit hkey input
    unfold Commands.smudge
    rw [if_neg (by simp [hrepo]), if_neg (by simp [hinit])]
    simp [KeyManager.load_key, hkey]
  · intro input
    unfold Commands.diff diff_filter
    by_cases h : CryptoKey.is_encrypted input = true
    · exact ⟨DIFF_MARKER, by rw [if_pos h]⟩
    · exact ⟨input, by rw [if_neg h]⟩

/-- C5 witness: the amended preconditions applied to an in-repo state with
no git-crypt directory — clean fails with NotInitialized for the concrete
input `[0]`. -/
theorem C5_filter_preconditions_witness :
    Commands.clean toyAead ⟨true, false, false, none⟩ [] [0] =
      .error .NotInitialized :=
  (C5_filter_preconditions toyAead ⟨true, false, false, none⟩ rfl).1 rfl [] [0]

/-- C6 counterexample: on an already-initialized repository state, the
init command returns success — not the AlreadyInitialized error — while
leaving the state (key file included) unchanged. -/
theorem C6_init_counterexample :
    Commands.init ⟨List.replicate KEY_SIZE 1⟩
        ⟨true, true, true, some (List.replicate KEY_SIZE 7)⟩ =
      (.ok (), ⟨true, true, true, some (List.replicate KEY_SIZE 7)⟩) ∧
    (Except.ok () : Except GitCryptError Unit) ≠
      .error .AlreadyInitialized := by
  refine ⟨rfl, by simp⟩

/-- C6 (amended): on an already-initialized repository, the low-level
`KeyManager::init_dirs` fails with AlreadyInitialized and changes nothing,
while the init command returns success early — in both cases no key is
generated and the stored key file is byte-for-byte unchanged. -/
theorem C6_init_exactly_once (freshKey : CryptoKey) (s : RepoState)
    (hinit : KeyManager.is_initialized s = true) :
    KeyManager.init_dirs s = (.error .AlreadyInitialized, s) ∧
    (s.inGitRepo = true → Commands.init freshKey s = (.ok (), s)) := by
  constructor
  · have hg : s.gitCryptDirExists = true := hinit
    unfold KeyManager.init_dirs
    rw [if_pos hg]
  · intro hrepo
    unfold Commands.init
    rw [if_neg (by simp [hrepo]), if_pos hinit]

/-- C6 witness: the amended statement applied to a concrete initialized
state — init_dirs fails with AlreadyInitialized and leaves it unchanged. -/
theorem C6_init_exactly_once_witness :
    KeyManager.init_dirs ⟨true, true, true, some (List.replicate KEY_SIZE 7)⟩ =
      (.error .AlreadyInitialized,
        ⟨true, true, true, some (List.replicate KEY_SIZE 7)⟩) :=
  (C6_init_exactly_once ⟨List.replicate KEY_SIZE 1⟩
    ⟨true, true, true, some (List.replicate KEY_SIZE 7)⟩ rfl).1

/-- C9: importing a file whose content is not exactly 32 bytes fails with
InvalidKeyFormat and leaves the state — in particular the stored default
key file — unchanged: validation precedes any write. -/
theorem C9_import_key_atomic (s : RepoState) (content : Bytes)
    (h : content.length ≠ KEY_SIZE) :
    KeyManager.import_key (some content) s = (.error .InvalidKeyFormat, s) := by
  have hfb : CryptoKey.from_bytes content = .error .InvalidKeyFormat := by
    unfold CryptoKey.from_bytes
    rw [if_pos h]
  unfold KeyManager.import_key
  simp only [hfb]

/-- C9 witness: importing the 3-byte content `[1, 2, 3]` into a concrete
initialized state fails with InvalidKeyFormat, state unchanged. -/
theorem C9_import_key_atomic_witness :
    KeyManager.import_key (some [1, 2, 3])
        ⟨true, true, true, some (List.replicate KEY_SIZE 7)⟩ =
      (.error .InvalidKeyFormat,
        ⟨true, true, true, some (List.replicate KEY_SIZE 7)⟩) :=
  C9_import_key_atomic ⟨true, true, true, some (List.replicate KEY_SIZE 7)⟩
    [1, 2, 3] (by decide)

/-- C7: wrapping the 32-byte master key for an SSH recipient and
unwrapping with the matching private identity recovers the key exactly,
for any age backend honouring its parse and round-trip contracts; and any
recovered payload that is not exactly 32 bytes makes unwrapping fail with
InvalidKeyFormat. -/
theorem C7_wrap_unwrap_roundtrip {R I : Type} (B : AgeBackend R I)
    (r : R) (idn : I) (pub priv label : String)
    (hpub : B.parseRecipient pub.trim = some r)
    (hpriv : B.parseIdentity priv label = some idn)
    (hmatch : B.MatchingPair r idn)
    (key : CryptoKey) (hk : key.key.length = KEY_SIZE) (env : Bytes)
    (henc : RageManager.encrypt_key_for_ssh_recipient B key pub = .ok env) :
    RageManager.decrypt_key_with_ssh_identity B env priv label = .ok key ∧
    (∀ blob payload, B.decryptPayload idn blob = some payload →
      payload.length ≠ KEY_SIZE →
      RageManager.decrypt_key_with_ssh_identity B blob priv label =
        .error .InvalidKeyFormat) := by
  constructor
  · have hshape : B.encryptPayload r key.as_bytes = some env := by
      unfold RageManager.encrypt_key_for_ssh_recipient at henc
      simp only [hpub] at henc
      cases hep : B.encryptPayload r key.as_bytes with
      | none => simp only [hep] at henc; exact absurd henc (by simp)
      | some ct =>
        simp only [hep] at henc
        exact congrArg some (Except.ok.inj henc)
    have hdec : B.decryptPayload idn env = some key.as_bytes :=
      hmatch key.as_bytes env hshape
    unfold RageManager.decrypt_key_with_ssh_identity
    simp only [hpriv, hdec]
    unfold CryptoKey.from_bytes
    rw [if_neg (fun hne => hne hk)]
    cases key
    rfl
  · intro blob payload hdec hlen
    unfold RageManager.decrypt_key_with_ssh_identity
    simp only [hpriv, hdec]
    unfold CryptoKey.from_bytes
    rw [if_pos hlen]

/-- C7 witness: the round-trip evaluated with the concrete backend, the
all-3 32-byte key and a fixed key pair text. -/
theorem C7_wrap_unwrap_roundtrip_witness :
    RageManager.decrypt_key_with_ssh_identity toyAge
        (List.replicate KEY_SIZE 3) "priv-key-text" "label" =
      .ok ⟨List.replicate KEY_SIZE 3⟩ :=
  (C7_wrap_unwrap_roundtrip toyAge () () "ssh-ed25519 AAAA" "priv-key-text"
    "label" rfl rfl toyAge_matching ⟨List.replicate KEY_SIZE 3⟩ (by decide)
    (List.replicate KEY_SIZE 3) rfl).1

/-- A non-empty string passes the `!isEmpty` filter. -/
lemma filter_nonempty_some (s : String) (h : s ≠ "") :
    (some s).filter (fun x => !x.isEmpty) = some s := by
  have hie : s.isEmpty = false := by
    cases hb : s.isEmpty with
    | false => rfl
    | true => exact absurd ((String.isEmpty_iff s).mp hb) h
  simp [Option.filter, hie]

/-- The empty string is removed by the `!isEmpty` filter. -/
lemma filter_empty_some (s : String) (h : s = "") :
    (some s).filter (fun x => !x.isEmpty) = none := by
  subst h
  rfl

/-- A string surviving the `!isEmpty` filter is non-empty. -/
lemma filter_nonempty_mem (o : Option String) (v : String)
    (h : o.filter (fun s => !s.isEmpty) = some v) : v ≠ "" := by
  cases o with
  | none => exact absurd h (by simp [Option.filter])
  | some a =>
    cases he : a.isEmpty with
    | true =>
      rw [filter_empty_some a ((String.isEmpty_iff a).mp he)] at h
      exact absurd h (by simp)
    | false =>
      have hne : a ≠ "" := fun hq =>
        by rw [hq] at he; exact absurd he (by decide)
      rw [filter_nonempty_some a hne] at h
      exact (Option.some.inj h) ▸ hne

/-- Mapping `sanitize_label` over a present value and filtering keeps it
when the sanitized form is non-empty. -/
lemma map_filter_some (o : Option String) (t : String) (ho : o = some t)
    (h : sanitize_label t ≠ "") :
    (o.map sanitize_label).filter (fun s => !s.isEmpty) =
      some (sanitize_label t) := by
  subst ho
  exact filter_nonempty_some _ h

/-- Mapping `sanitize_label` and filtering drops absent values and values
sanitizing to the empty string. -/
lemma map_filter_none (o : Option String)
    (h : ∀ t, o = some t → sanitize_label t = "") :
    (o.map sanitize_label).filter (fun s => !s.isEmpty) = none := by
  cases o with
  | none => rfl
  | some a => exact filter_empty_some _ (h a rfl)

/-- Naming tier (b): the sanitized comment field, when present and
non-empty after sanitization. -/
lemma derive_name_comment (hash : String → Bytes) (ssh_key : String)
    (stem : Option String) (t : String)
    (ht : (splitWhitespaceTokens ssh_key).get? 2 = some t)
    (hne : sanitize_label t ≠ "") :
    derive_recipient_name hash ssh_key stem = sanitize_label t := by
  simp only [derive_recipient_name]
  rw [map_filter_some _ t ht hne]
  rfl

/-- Naming tier (c): the sanitized file stem, when the comment field is
missing or sanitizes to the empty string. -/
lemma derive_name_stem (hash : String → Bytes) (ssh_key : String)
    (stem : Option String) (st : String)
    (hcomment : ∀ t, (splitWhitespaceTokens ssh_key).get? 2 = some t →
      sanitize_label t = "")
    (hst : stem = some st) (hne : sanitize_label st ≠ "") :
    derive_recipient_name hash ssh_key stem = sanitize_label st := by
  simp only [derive_recipient_name]
  rw [map_filter_none _ hcomment, map_filter_some _ st hst hne]
  rfl

/-- Naming tier (d): the hash fallback, when comment and stem are both
unusable. -/
lemma derive_name_fallback (hash : String → Bytes) (ssh_key : String)
    (stem : Option String)
    (hcomment : ∀ t, (splitWhitespaceTokens ssh_key).get? 2 = some t →
      sanitize_label t = "")
    (hstem : ∀ st, stem = some st → sanitize_label st = "") :
    derive_recipient_name hash ssh_key stem =
      fallback_fingerprint hash ssh_key := by
  simp only [derive_recipient_name]
  rw [map_filter_none _ hcomment, map_filter_none _ hstem]
  rfl

/-- When the alias is absent or sanitizes to the empty string, the name is
taken from the derived-name chain. -/
lemma recipient_name_of_alias_empty (hash : String → Bytes)
    (aliasOpt : Option String) (ssh_key : String) (stem : Option String)
    (h : ∀ a, aliasOpt = some a → sanitize_label a = "") :
    recipient_name hash aliasOpt ssh_key stem =
      derive_recipient_name hash ssh_key stem := by
  unfold recipient_name
  rw [map_filter_none _ h]
  rfl

/-- The hash fallback name starts with "ssh-" and is never empty. -/
lemma fallback_fingerprint_ne_empty (hash : String → Bytes) (s : String) :
    fallback_fingerprint hash s ≠ "" := by
  unfold fallback_fingerprint
  intro h
  have hlen := congrArg String.length h
  rw [String.length_append] at hlen
  have h4 : ("ssh-" : String).length = 4 := rfl
  have h0 : ("" : String).length = 0 := rfl
  omega

/-- The derived-name chain never yields the empty string. -/
lemma derive_recipient_name_ne_empty (hash : String → Bytes)
    (ssh_key : String) (stem : Option String) :
    derive_recipient_name hash ssh_key stem ≠ "" := by
  simp only [derive_recipient_name]
  cases hc : (((splitWhitespaceTokens ssh_key).get? 2).map
      sanitize_label).filter (fun s => !s.isEmpty) with
  | some v =>
    exact filter_nonempty_mem _ v hc
  | none =>
    cases hs : (stem.map sanitize_label).filter (fun s => !s.isEmpty) with
    | some w =>
      exact filter_nonempty_mem _ w hs
    | none =>
      exact fallback_fingerprint_ne_empty hash ssh_key

/-- C8: the wrapped key file name is derived in priority order: (a) the
sanitized caller-supplied alias; (b) otherwise the sanitized third
whitespace-delimited token (comment field) of the key text when non-empty;
(c) otherwise the sanitized file stem; (d) otherwise the deterministic
string "ssh-" followed by the lowercase hex of the first 8 bytes of the
hash of the raw key text. -/
theorem C8_recipient_naming (hash : String → Bytes) (aliasOpt : Option String)
    (ssh_key : String) (stem : Option String) :
    (∀ a, aliasOpt = some a → sanitize_label a ≠ "" →
      recipient_name hash aliasOpt ssh_key stem = sanitize_label a) ∧
    ((∀ a, aliasOpt = some a → sanitize_label a = "") →
      ∀ t, (splitWhitespaceTokens ssh_key).get? 2 = some t →
      sanitize_label t ≠ "" →
      recipient_name hash aliasOpt ssh_key stem = sanitize_label t) ∧
    ((∀ a, aliasOpt = some a → sanitize_label a = "") →
      (∀ t, (splitWhitespaceTokens ssh_key).get? 2 = some t →
        sanitize_label t = "") →
      ∀ st, stem = some st → sanitize_label st ≠ "" →
      recipient_name hash aliasOpt ssh_key stem = sanitize_label st) ∧
    ((∀ a, aliasOpt = some a → sanitize_label a = "") →
      (∀ t, (splitWhitespaceTokens ssh_key).get? 2 = some t →
        sanitize_label t = "") →
      (∀ st, stem = some st → sanitize_label st = "") →
      recipient_name hash aliasOpt ssh_key stem =
        "ssh-" ++ hexEncode ((hash ssh_key).take 8)) := by
  refine ⟨?_, ?_, ?_, ?_⟩
  · intro a ha hne
    subst ha
    unfold recipient_name
    rw [map_filter_some _ a rfl hne]
    rfl
  · intro hal t ht hne
    rw [recipient_name_of_alias_empty hash aliasOpt ssh_key stem hal]
    exact derive_name_comment hash ssh_key stem t ht hne
  · intro hal hcomment st hst hne
    rw [recipient_name_of_alias_empty hash aliasOpt ssh_key stem hal]
    exact derive_name_stem hash ssh_key stem st hcomment hst hne
  · intro hal hcomment hstem
    rw [recipient_name_of_alias_empty hash aliasOpt ssh_key stem hal]
    exact derive_name_fallback hash ssh_key stem hcomment hstem

/-- C8 witness: with no alias, a two-token key text (no comment field) and
no usable file stem, the name is the deterministic hash fallback. -/
theorem C8_recipient_naming_witness :
    recipient_name toyHash none "ssh-ed25519 AAAA" none =
      "ssh-" ++ hexEncode ((toyHash "ssh-ed25519 AAAA").take 8) := by
  have hnone : (splitWhitespaceTokens "ssh-ed25519 AAAA").get? 2 = none := by
    decide
  exact (C8_recipient_naming toyHash none "ssh-ed25519 AAAA" none).2.2.2
    (fun a h => nomatch h)
    (fun t ht => absurd (hnone.symm.trans ht) (by simp))
    (fun st hst => nomatch hst)

/-- C10: an alias that sanitizes to the empty string is not used — the
name falls through to the derived-name chain — and the resulting wrapped
key file name is never the empty string, for any alias. -/
theorem C10_empty_alias_falls_through (hash : String → Bytes)
    (a : String) (ssh_key : String) (stem : Option String)
    (h : sanitize_label a = "") :
    recipient_name hash (some a) ssh_key stem =
      derive_recipient_name hash ssh_key stem ∧
    (∀ aliasOpt, recipient_name hash aliasOpt ssh_key stem ≠ "") := by
  constructor
  · exact recipient_name_of_alias_empty hash (some a) ssh_key stem
      (fun x hx => (Option.some.inj hx) ▸ h)
  · intro aliasOpt
    cases hf : (aliasOpt.map sanitize_label).filter (fun s => !s.isEmpty) with
    | some v =>
      unfold recipient_name
      rw [hf]
      exact filter_nonempty_mem _ v hf
    | none =>
      unfold recipient_name
      rw [hf]
      exact derive_recipient_name_ne_empty hash ssh_key stem

/-- C10 witness: the all-symbols alias "@@!" sanitizes to nothing, so the
name comes from the derived chain and is non-empty. -/
theorem C10_empty_alias_falls_through_witness :
    recipient_name toyHash (some "@@!") "ssh-ed25519 AAAA" none =
      derive_recipient_name toyHash "ssh-ed25519 AAAA" none :=
  (C10_empty_alias_falls_through toyHash "@@!" "ssh-ed25519 AAAA" none
    (by decide)).1

end GitCrypt
